import Mathlib

/-!
Shallow embedding of `src/backend/gtfs_parser.py` (the GTFS feed parser and
route-reconstruction engine) and proofs about its specified properties.

Modelling conventions:
* Python `dict` (insertion-ordered) is modelled as an association list;
  assignment replaces the value in place (`dSet`), `dict.get` is `dGet?`,
  and `defaultdict(list)` append is `dAppend`.
* A `csv.DictReader` row is modelled as an association list from header field
  names to cell strings (`Row`).  Rows shorter than the header, which Python
  pads with `None` cells, are modelled separately (`PaddedRow`) where that
  behaviour matters.
* Python `int(s)` / `float(s)` on plain decimal literals are modelled by
  `pyInt?` / `pyFloat?` (returning `none` on a `ValueError`); float values are
  modelled as exact rationals, since no arithmetic is performed on them.
* Python `sorted` is a stable sort; it is modelled by `List.insertionSort`,
  which is the stable sort for a decidable total preorder.
* Machine-level concerns (actual ZIP byte streams, UTF-8 decoding) are below
  the embedding: an archive is `none` when the bytes do not open as a ZIP,
  otherwise an optional list of rows per known table.
-/

/-! ### Python dictionary model -/

/-- Lookup in an insertion-ordered dictionary (association list). -/
def dGet? {κ ν : Type} [DecidableEq κ] : List (κ × ν) → κ → Option ν
  | [], _ => none
  | e :: rest, k => if e.1 = k then some e.2 else dGet? rest k

/-- Assignment `d[k] = v` in an insertion-ordered dictionary: replaces the
value in place if the key is present, else appends the new binding. -/
def dSet {κ ν : Type} [DecidableEq κ] : List (κ × ν) → κ → ν → List (κ × ν)
  | [], k, v => [(k, v)]
  | e :: rest, k, v => if e.1 = k then (k, v) :: rest else e :: dSet rest k v

/-- Append `d[k].append(v)` for a `defaultdict(list)`: appends to the bucket
if the key is present, else creates a singleton bucket at the end. -/
def dAppend {κ ν : Type} [DecidableEq κ] :
    List (κ × List ν) → κ → ν → List (κ × List ν)
  | [], k, v => [(k, [v])]
  | e :: rest, k, v =>
    if e.1 = k then (e.1, e.2 ++ [v]) :: rest else e :: dAppend rest k v

/-! ### Python primitive conversions -/

/-- Numeric value of a decimal digit character. -/
def digitVal (c : Char) : Nat := c.toNat - 48

/-- Value of a run of decimal digits; `none` if a non-digit occurs.
The empty run yields `some 0`; callers guard against emptiness. -/
def digitsVal? (cs : List Char) : Option Nat :=
  cs.foldl (fun acc c =>
    match acc with
    | none => none
    | some n => if c.isDigit then some (n * 10 + digitVal c) else none) (some 0)

/-- Strip an optional leading sign, returning the sign as `±1`. -/
def splitSign : List Char → Int × List Char
  | '-' :: rest => (-1, rest)
  | '+' :: rest => (1, rest)
  | cs => (1, cs)

/-- Model of Python `int(s)` on plain decimal integer literals:
`none` models a `ValueError`. -/
def pyInt? (s : String) : Option Int :=
  let sc := splitSign s.data
  if sc.2.isEmpty then none
  else
    match digitsVal? sc.2 with
    | some n => some (sc.1 * (n : Int))
    | none => none

/-- Model of Python `float(s)` on plain decimal literals (optional sign,
digits, optional decimal point).  The value is kept as an exact rational,
since the program performs no arithmetic on coordinates; `none` models a
`ValueError`. -/
def pyFloat? (s : String) : Option Rat :=
  let sc := splitSign s.data
  match sc.2.splitOn '.' with
  | [ip] =>
    if ip.isEmpty then none
    else
      match digitsVal? ip with
      | some n => some (mkRat (sc.1 * (n : Int)) 1)
      | none => none
  | [ip, fp] =>
    if ip.isEmpty && fp.isEmpty then none
    else
      match digitsVal? ip, digitsVal? fp with
      | some i, some f =>
          some (mkRat (sc.1 * ((i * 10 ^ fp.length + f : Nat) : Int)) (10 ^ fp.length))
      | _, _ => none
  | _ => none

/-- Code-point lexicographic comparison of character lists: the order Python
uses to compare `str` values. -/
def charListLe : List Char → List Char → Bool
  | [], _ => true
  | _ :: _, [] => false
  | a :: as, b :: bs =>
    if a.toNat < b.toNat then true
    else if b.toNat < a.toNat then false
    else charListLe as bs

/-- Python string comparison `a <= b` (code-point lexicographic). -/
def strLe (a b : String) : Prop := charListLe a.data b.data = true

instance : DecidableRel strLe := fun a b => inferInstanceAs (Decidable (_ = _))

/-! ### Data model (`Stop`, `Route`) -/

/-- A transit stop/station (dataclass `Stop`). -/
structure Stop where
  id : String
  name : String
  lat : Rat
  lng : Rat
deriving DecidableEq

/-- A transit route with ordered stops (dataclass `Route`). -/
structure Route where
  id : String
  name : String
  route_type : Int
  stop_ids : List String
  shape_coords : List (Rat × Rat)
deriving DecidableEq

/-- Normalization of extended GTFS route types to basic types
(`normalize_route_type`): dictionary lookup with default
`route_type if route_type <= 7 else 3`. -/
def normalize_route_type (t : Int) : Int :=
  if t = 100 then 2 else if t = 101 then 2 else if t = 102 then 2
  else if t = 103 then 2 else if t = 106 then 2 else if t = 109 then 2
  else if t = 400 then 1 else if t = 401 then 1
  else if t = 700 then 3 else if t = 702 then 3 else if t = 704 then 3
  else if t = 900 then 0
  else if t = 1000 then 4
  else if t ≤ 7 then t else 3

/-! ### Table parsing -/

/-- A `csv.DictReader` row in which every header field has a (possibly empty)
string cell. -/
abbrev Row := List (String × String)

/-- One row of `stops.txt` (`GtfsParser._parse_stops` loop body): requires
`stop_id` and numeric `stop_lat` / `stop_lon`; a `KeyError` or `ValueError`
skips the row. -/
def parse_stops_row (stops : List (String × Stop)) (row : Row) :
    List (String × Stop) :=
  match dGet? row "stop_id", dGet? row "stop_lat", dGet? row "stop_lon" with
  | some sid, some slat, some slon =>
    match pyFloat? slat, pyFloat? slon with
    | some lat, some lng =>
        dSet stops sid ⟨sid, (dGet? row "stop_name").getD "", lat, lng⟩
    | _, _ => stops
  | _, _, _ => stops

/-- `GtfsParser._parse_stops`. -/
def parse_stops (stops0 : List (String × Stop)) (rows : List Row) :
    List (String × Stop) :=
  rows.foldl parse_stops_row stops0

/-- Route display name: `row.get("route_short_name") or
row.get("route_long_name", "")`. -/
def routeName (row : Row) : String :=
  match dGet? row "route_short_name" with
  | some s => if s = "" then (dGet? row "route_long_name").getD "" else s
  | none => (dGet? row "route_long_name").getD ""

/-- One row of `routes.txt` (`GtfsParser._parse_routes` loop body): requires
`route_id`; `route_type = int(row.get("route_type", 3))`, so an absent field
defaults to `3` while a present but non-numeric field raises `ValueError`
and skips the row. -/
def parse_routes_row (info : List (String × String × Int)) (row : Row) :
    List (String × String × Int) :=
  match dGet? row "route_id" with
  | none => info
  | some rid =>
    match dGet? row "route_type" with
    | none => dSet info rid (routeName row, 3)
    | some s =>
      match pyInt? s with
      | some n => dSet info rid (routeName row, n)
      | none => info

/-- `GtfsParser._parse_routes`. -/
def parse_routes (info0 : List (String × String × Int)) (rows : List Row) :
    List (String × String × Int) :=
  rows.foldl parse_routes_row info0

/-- One row of `trips.txt` (`GtfsParser._parse_trips` loop body), updating
the pair (`_trip_to_route`, `_trip_to_shape`): requires `trip_id` and
`route_id`; `shape_id` is recorded only if present and non-empty. -/
def parse_trips_row (tr : List (String × String) × List (String × String))
    (row : Row) : List (String × String) × List (String × String) :=
  match dGet? row "trip_id" with
  | none => tr
  | some tid =>
    match dGet? row "route_id" with
    | none => tr
    | some rid =>
      let t2r := dSet tr.1 tid rid
      match dGet? row "shape_id" with
      | some sh => if sh = "" then (t2r, tr.2) else (t2r, dSet tr.2 tid sh)
      | none => (t2r, tr.2)

/-- `GtfsParser._parse_trips`. -/
def parse_trips (tr0 : List (String × String) × List (String × String))
    (rows : List Row) : List (String × String) × List (String × String) :=
  rows.foldl parse_trips_row tr0

/-- One row of `shapes.txt` accumulating into the local `shape_points`
defaultdict: requires `shape_id`, integer `shape_pt_sequence` and numeric
coordinates; malformed rows are skipped. -/
def shapePointsRow (acc : List (String × List (Int × Rat × Rat))) (row : Row) :
    List (String × List (Int × Rat × Rat)) :=
  match dGet? row "shape_id", dGet? row "shape_pt_sequence",
        dGet? row "shape_pt_lat", dGet? row "shape_pt_lon" with
  | some sid, some s, some la, some lo =>
    match pyInt? s, pyFloat? la, pyFloat? lo with
    | some seq, some lat, some lng => dAppend acc sid (seq, lat, lng)
    | _, _, _ => acc
  | _, _, _, _ => acc

/-- The accumulated per-shape `(sequence, lat, lng)` points of
`GtfsParser._parse_shapes`, before sorting. -/
def shapePoints (rows : List Row) : List (String × List (Int × Rat × Rat)) :=
  rows.foldl shapePointsRow []

/-- Comparison key of `sorted(points, key=lambda x: x[0])`: sequence number
only, so tied elements compare equal and the stable sort preserves their
input order. -/
def seqLe (a b : Int × Rat × Rat) : Prop := a.1 ≤ b.1

instance : DecidableRel seqLe := fun a b => inferInstanceAs (Decidable (_ ≤ _))

/-- Per-shape finalization in `GtfsParser._parse_shapes`: sort the
accumulated points by sequence (stably) and keep just the coordinates. -/
def sortedShape (pts : List (Int × Rat × Rat)) : List (Rat × Rat) :=
  (List.insertionSort seqLe pts).map (fun p => (p.2.1, p.2.2))

/-- `GtfsParser._parse_shapes`: accumulate, then store the sorted coordinate
list per shape id. -/
def parse_shapes (shapes0 : List (String × List (Rat × Rat))) (rows : List Row) :
    List (String × List (Rat × Rat)) :=
  (shapePoints rows).foldl (fun acc e => dSet acc e.1 (sortedShape e.2)) shapes0

/-- One row of `stop_times.txt` (`GtfsParser._parse_stop_times` loop body):
requires `trip_id`, `stop_id`, integer `stop_sequence`, and discards the row
early when the trip id is not a key of `_trip_to_route`. -/
def parse_stop_times_row (trip_to_route : List (String × String))
    (acc : List (String × List (Int × String))) (row : Row) :
    List (String × List (Int × String)) :=
  match dGet? row "trip_id" with
  | none => acc
  | some tid =>
    if (dGet? trip_to_route tid).isSome then
      match dGet? row "stop_id" with
      | none => acc
      | some sid =>
        match dGet? row "stop_sequence" with
        | none => acc
        | some s =>
          match pyInt? s with
          | some seq => dAppend acc tid (seq, sid)
          | none => acc
    else acc

/-- `GtfsParser._parse_stop_times`. -/
def parse_stop_times (trip_to_route : List (String × String))
    (acc0 : List (String × List (Int × String))) (rows : List Row) :
    List (String × List (Int × String)) :=
  rows.foldl (parse_stop_times_row trip_to_route) acc0

/-- Modelled from the spec: the variant of the stop-times row handler without
the early-exit `trip_id not in known_trips` filter, which the spec calls a
pure optimization.  It accumulates every well-formed stop-time row. -/
def parse_stop_times_row_all (acc : List (String × List (Int × String)))
    (row : Row) : List (String × List (Int × String)) :=
  match dGet? row "trip_id" with
  | none => acc
  | some tid =>
    match dGet? row "stop_id" with
    | none => acc
    | some sid =>
      match dGet? row "stop_sequence" with
      | none => acc
      | some s =>
        match pyInt? s with
        | some seq => dAppend acc tid (seq, sid)
        | none => acc

/-- Modelled from the spec: stop-times parsing without the early-exit
filter. -/
def parse_stop_times_all (acc0 : List (String × List (Int × String)))
    (rows : List Row) : List (String × List (Int × String)) :=
  rows.foldl parse_stop_times_row_all acc0

/-! ### Route reconstruction (`GtfsParser._build_routes`) -/

/-- Comparison of `(stop_sequence, stop_id)` tuples as Python `sorted`
compares them: by sequence first, then by stop id as a string. -/
def pairLe (a b : Int × String) : Prop :=
  a.1 < b.1 ∨ (a.1 = b.1 ∧ strLe a.2 b.2)

instance : DecidableRel pairLe := fun a b => inferInstanceAs (Decidable (_ ∨ _))

/-- Ordered stop ids of one trip:
`[stop_id for _, stop_id in sorted(stops)]`. -/
def sortTripStops (stops : List (Int × String)) : List String :=
  (List.insertionSort pairLe stops).map Prod.snd

/-- One iteration of the trip-grouping loop in `GtfsParser._build_routes`:
a trip contributes `(sorted_stops, shape_id)` to its route's bucket when its
route id is known and truthy (non-empty). -/
def routeTripsStep (t2r t2s : List (String × String))
    (acc : List (String × List (List String × String)))
    (e : String × List (Int × String)) :
    List (String × List (List String × String)) :=
  match dGet? t2r e.1 with
  | some rid =>
    if rid = "" then acc
    else dAppend acc rid (sortTripStops e.2, (dGet? t2s e.1).getD "")
  | none => acc

/-- The `route_trips` grouping of `GtfsParser._build_routes`. -/
def routeTrips (t2r t2s : List (String × String))
    (trip_stops : List (String × List (Int × String))) :
    List (String × List (List String × String)) :=
  trip_stops.foldl (routeTripsStep t2r t2s) []

/-- Tail of Python `max(…, key=key)`: keep the current best unless a later
element is strictly greater, so the first maximal element wins ties. -/
def pyMaxGo {α : Type} (key : α → Nat) (b : α) : List α → α
  | [] => b
  | x :: xs => pyMaxGo key (if key b < key x then x else b) xs

/-- Python `max(l, key=key)` returning `none` on the empty list (where Python
would raise; the caller guards with `if not trip_data: continue`). -/
def pyMax {α : Type} (key : α → Nat) : List α → Option α
  | [] => none
  | x :: xs => some (pyMaxGo key x xs)

/-- Emission of one `Route` from its grouped trips in
`GtfsParser._build_routes`: pick the longest trip as representative, filter
its stop ids to known stops, drop the route if fewer than 2 remain, attach
shape coordinates and route info (defaulting to `("Unknown", 3)`). -/
def mkRoute (stops : List (String × Stop))
    (shapes : List (String × List (Rat × Rat)))
    (route_info : List (String × String × Int))
    (rid : String) (td : List (List String × String)) : Option Route :=
  match pyMax (fun x => x.1.length) td with
  | none => none
  | some best =>
    let stop_ids := best.1.filter (fun s => (dGet? stops s).isSome)
    if stop_ids.length < 2 then none
    else
      let ni := (dGet? route_info rid).getD ("Unknown", 3)
      some ⟨rid, ni.1, normalize_route_type ni.2, stop_ids,
            (dGet? shapes best.2).getD []⟩

/-- Intermediate parser state (the fields of a `GtfsParser` instance). -/
structure ParserState where
  stops : List (String × Stop)
  routes : List Route
  route_info : List (String × String × Int)
  trip_to_route : List (String × String)
  trip_to_shape : List (String × String)
  trip_stops : List (String × List (Int × String))
  shapes : List (String × List (Rat × Rat))
deriving DecidableEq

/-- `GtfsParser._build_routes`: the routes appended to `self.routes`, in
grouping iteration order. -/
def build_routes (st : ParserState) : List Route :=
  (routeTrips st.trip_to_route st.trip_to_shape st.trip_stops).filterMap
    (fun e => mkRoute st.stops st.shapes st.route_info e.1 e.2)

/-! ### Archive parsing (`GtfsParser._parse_zip`) -/

/-- The five known tables of a structurally valid GTFS archive; a table is
`none` when its file is absent from the ZIP. -/
structure GtfsTables where
  stops : Option (List Row)
  routes : Option (List Row)
  trips : Option (List Row)
  shapes : Option (List Row)
  stop_times : Option (List Row)
deriving DecidableEq

/-- The table-parsing and reconstruction pipeline of `GtfsParser._parse_zip`
on a fresh parser state: each present table is parsed in dependency order,
then routes are built. -/
def run_tables (t : GtfsTables) : ParserState :=
  let stops := match t.stops with
    | some rows => parse_stops [] rows
    | none => []
  let route_info := match t.routes with
    | some rows => parse_routes [] rows
    | none => []
  let tr := match t.trips with
    | some rows => parse_trips ([], []) rows
    | none => ([], [])
  let shapes := match t.shapes with
    | some rows => parse_shapes [] rows
    | none => []
  let trip_stops := match t.stop_times with
    | some rows => parse_stop_times tr.1 [] rows
    | none => []
  let st : ParserState := ⟨stops, [], route_info, tr.1, tr.2, trip_stops, shapes⟩
  { st with routes := st.routes ++ build_routes st }

/-- Modelled from the spec: `run_tables` with the unfiltered stop-times
variant, for the refinement claim that the early-exit filter does not change
the output. -/
def run_tables_all (t : GtfsTables) : ParserState :=
  let stops := match t.stops with
    | some rows => parse_stops [] rows
    | none => []
  let route_info := match t.routes with
    | some rows => parse_routes [] rows
    | none => []
  let tr := match t.trips with
    | some rows => parse_trips ([], []) rows
    | none => ([], [])
  let shapes := match t.shapes with
    | some rows => parse_shapes [] rows
    | none => []
  let trip_stops := match t.stop_times with
    | some rows => parse_stop_times_all [] rows
    | none => []
  let st : ParserState := ⟨stops, [], route_info, tr.1, tr.2, trip_stops, shapes⟩
  { st with routes := st.routes ++ build_routes st }

/-- `GtfsParser._parse_zip`: `none` models a byte stream that does not open
as a ZIP archive (`BadZipFile`, caught, returns `False`); any archive that
opens is parsed and the method returns `True`. -/
def parse_zip : Option GtfsTables → Bool × ParserState
  | none => (false, ⟨[], [], [], [], [], [], []⟩)
  | some t => (true, run_tables t)

/-! ### Cache layer (`GtfsParser.load_from_file`) -/

/-- The filesystem facts `load_from_file` consults: whether the derived
`.parsed` cache file exists, the two modification times, the result of
unpickling the cache (`none` models a corrupt or unreadable cache, i.e. the
caught `Exception`), and the source archive (`none` models an `IOError`
opening it; otherwise the ZIP contents as `parse_zip` sees them). -/
structure FsEnv where
  cacheExists : Bool
  zipMtime : Int
  cacheMtime : Int
  cacheData : Option (List (String × Stop) × List Route)
  zipTables : Option (Option GtfsTables)
deriving DecidableEq

/-- Outcome of `GtfsParser.load_from_file`: the model was loaded from the
derived cache, or the archive was (re-)parsed with the given result, or the
archive file could not be read (`IOError`, returns `False`). -/
inductive LoadOutcome where
  | fromCache (stops : List (String × Stop)) (routes : List Route)
  | parsed (ok : Bool) (st : ParserState)
  | readFailed
deriving DecidableEq

/-- The re-parse path of `load_from_file`: open the archive file and run
`_parse_zip` on its bytes. -/
def load_parse (env : FsEnv) : LoadOutcome :=
  match env.zipTables with
  | none => .readFailed
  | some z => .parsed (parse_zip z).1 (parse_zip z).2

/-- `GtfsParser.load_from_file`: use the derived cache only when it exists
and its mtime is strictly greater than the archive's; on an unpickling
failure fall through to re-parsing. -/
def load_from_file (env : FsEnv) : LoadOutcome :=
  if env.cacheExists ∧ env.zipMtime < env.cacheMtime then
    match env.cacheData with
    | some d => .fromCache d.1 d.2
    | none => load_parse env
  else load_parse env

/-! ### Padded rows (`csv.DictReader` on short data rows) -/

/-- A `csv.DictReader` row in which a cell may be `none`: Python pads a
non-blank data row that is shorter than the header with `None` values. -/
abbrev PaddedRow := List (String × Option String)

/-- Control-flow outcome of the `_parse_stops` loop body on one row. -/
inductive RowOutcome where
  | stored
  | skipped
  | uncaughtTypeError
deriving DecidableEq

/-- Control flow of the `_parse_stops` loop body on a possibly padded row:
a missing key raises `KeyError` (caught), `float` on a non-numeric string
raises `ValueError` (caught), but `float(None)` on a padded cell raises
`TypeError`, which the handler `except (KeyError, ValueError)` does not
catch, so it propagates out of the row loop. -/
def stops_row_outcome (row : PaddedRow) : RowOutcome :=
  match dGet? row "stop_id" with
  | none => .skipped
  | some _ =>
    match dGet? row "stop_lat" with
    | none => .skipped
    | some none => .uncaughtTypeError
    | some (some slat) =>
      match pyFloat? slat with
      | none => .skipped
      | some _ =>
        match dGet? row "stop_lon" with
        | none => .skipped
        | some none => .uncaughtTypeError
        | some (some slon) =>
          match pyFloat? slon with
          | none => .skipped
          | some _ => .stored

/-! ### Example inputs used by concrete theorems -/

/-- Feed in which one trip visits stop `A` twice (a loop trip). -/
def exLoopFeed : GtfsTables :=
  { stops := some [[("stop_id", "A"), ("stop_lat", "0"), ("stop_lon", "0")],
                   [("stop_id", "B"), ("stop_lat", "1"), ("stop_lon", "1")]],
    routes := none,
    trips := some [[("trip_id", "T"), ("route_id", "R")]],
    shapes := none,
    stop_times := some [[("trip_id", "T"), ("stop_id", "A"), ("stop_sequence", "1")],
                        [("trip_id", "T"), ("stop_id", "B"), ("stop_sequence", "2")],
                        [("trip_id", "T"), ("stop_id", "A"), ("stop_sequence", "3")]] }

/-- Small parser state with one trip over two known stops. -/
def exSmallState : ParserState :=
  ⟨[("A", ⟨"A", "", 0, 0⟩), ("B", ⟨"B", "", 1, 1⟩)], [], [], [("T", "R")], [],
   [("T", [(1, "A"), (2, "B")])], []⟩

/-- Shape rows for shape `s` arriving with sequence numbers 3, 1, 2. -/
def exShapeRows : List Row :=
  [[("shape_id", "s"), ("shape_pt_sequence", "3"), ("shape_pt_lat", "10"), ("shape_pt_lon", "10")],
   [("shape_id", "s"), ("shape_pt_sequence", "1"), ("shape_pt_lat", "0"), ("shape_pt_lon", "0")],
   [("shape_id", "s"), ("shape_pt_sequence", "2"), ("shape_pt_lat", "5"), ("shape_pt_lon", "5")]]

/-- The accumulated points of `exShapeRows` for shape `s`, in input order. -/
def exShapePts : List (Int × Rat × Rat) := [(3, 10, 10), (1, 0, 0), (2, 5, 5)]

/-- Stops table with eight stops `S1` … `S8`. -/
def exEightStops : List Row :=
  [[("stop_id", "S1"), ("stop_lat", "0"), ("stop_lon", "0")],
   [("stop_id", "S2"), ("stop_lat", "0"), ("stop_lon", "0")],
   [("stop_id", "S3"), ("stop_lat", "0"), ("stop_lon", "0")],
   [("stop_id", "S4"), ("stop_lat", "0"), ("stop_lon", "0")],
   [("stop_id", "S5"), ("stop_lat", "0"), ("stop_lon", "0")],
   [("stop_id", "S6"), ("stop_lat", "0"), ("stop_lon", "0")],
   [("stop_id", "S7"), ("stop_lat", "0"), ("stop_lon", "0")],
   [("stop_id", "S8"), ("stop_lat", "0"), ("stop_lon", "0")]]

/-- Stop-time rows of a five-stop trip `T5` on route `R`. -/
def exFiveStopTimes : List Row :=
  [[("trip_id", "T5"), ("stop_id", "S1"), ("stop_sequence", "1")],
   [("trip_id", "T5"), ("stop_id", "S2"), ("stop_sequence", "2")],
   [("trip_id", "T5"), ("stop_id", "S3"), ("stop_sequence", "3")],
   [("trip_id", "T5"), ("stop_id", "S4"), ("stop_sequence", "4")],
   [("trip_id", "T5"), ("stop_id", "S5"), ("stop_sequence", "5")]]

/-- Stop-time rows of an eight-stop trip `T8` on route `R`. -/
def exEightStopTimes : List Row :=
  [[("trip_id", "T8"), ("stop_id", "S1"), ("stop_sequence", "1")],
   [("trip_id", "T8"), ("stop_id", "S2"), ("stop_sequence", "2")],
   [("trip_id", "T8"), ("stop_id", "S3"), ("stop_sequence", "3")],
   [("trip_id", "T8"), ("stop_id", "S4"), ("stop_sequence", "4")],
   [("trip_id", "T8"), ("stop_id", "S5"), ("stop_sequence", "5")],
   [("trip_id", "T8"), ("stop_id", "S6"), ("stop_sequence", "6")],
   [("trip_id", "T8"), ("stop_id", "S7"), ("stop_sequence", "7")],
   [("trip_id", "T8"), ("stop_id", "S8"), ("stop_sequence", "8")]]

/-- Feed with trips `T8` and `T5` on route `R`, the eight-stop trip first. -/
def exTwoTripsA : GtfsTables :=
  { stops := some exEightStops,
    routes := some [[("route_id", "R"), ("route_short_name", "R1"), ("route_type", "3")]],
    trips := some [[("trip_id", "T5"), ("route_id", "R")], [("trip_id", "T8"), ("route_id", "R")]],
    shapes := none,
    stop_times := some (exEightStopTimes ++ exFiveStopTimes) }

/-- Feed with trips `T8` and `T5` on route `R`, the five-stop trip first. -/
def exTwoTripsB : GtfsTables :=
  { stops := some exEightStops,
    routes := some [[("route_id", "R"), ("route_short_name", "R1"), ("route_type", "3")]],
    trips := some [[("trip_id", "T5"), ("route_id", "R")], [("trip_id", "T8"), ("route_id", "R")]],
    shapes := none,
    stop_times := some (exFiveStopTimes ++ exEightStopTimes) }

/-- Routes-table row with a `route_id` and a present but non-numeric `route_type`. -/
def exBadTypeRow : Row := [("route_id", "r"), ("route_type", "abc")]

/-- Routes-table row with a `route_id`, a non-empty short name, and no `route_type`. -/
def exGoodRouteRow : Row := [("route_id", "r"), ("route_short_name", "R1")]

/-- Filesystem view: derived cache written strictly after the archive (T+1 vs T). -/
def exEnvFresh : FsEnv := ⟨true, 5, 6, some ([], []), some none⟩

/-- Filesystem view: derived cache written at the same instant as the archive. -/
def exEnvSame : FsEnv := ⟨true, 5, 5, some ([], []), some none⟩

/-- Filesystem view: fresh but corrupt derived cache. -/
def exEnvCorrupt : FsEnv := ⟨true, 5, 6, none, some none⟩

/-- A padded stops row: the data line held only `S1`, so the remaining header
fields were filled with `None` by `csv.DictReader`. -/
def exShortStopsRow : PaddedRow :=
  [("stop_id", some "S1"), ("stop_name", none), ("stop_lat", none), ("stop_lon", none)]

section Helpers

variable {κ ν : Type} [DecidableEq κ]

theorem dGet?_mem {m : List (κ × ν)} {k : κ} {v : ν} (h : dGet? m k = some v) :
    (k, v) ∈ m := by
  induction m with
  | nil => simp [dGet?] at h
  | cons e rest ih =>
    rw [dGet?] at h
    by_cases he : e.1 = k
    · rw [if_pos he, Option.some.injEq] at h
      have : e = (k, v) := by
        obtain ⟨e1, e2⟩ := e
        simp only at he h
        rw [he, h]
      rw [← this]
      exact List.mem_cons_self e rest
    · rw [if_neg he] at h
      exact List.mem_cons_of_mem _ (ih h)

theorem dGet?_dSet_self (m : List (κ × ν)) (k : κ) (v : ν) :
    dGet? (dSet m k v) k = some v := by
  induction m with
  | nil => simp [dSet, dGet?]
  | cons e rest ih =>
    rw [dSet]
    by_cases he : e.1 = k
    · simp [he, dGet?]
    · simp [he, dGet?, ih]

theorem dGet?_dSet_ne (m : List (κ × ν)) {k k' : κ} (v : ν) (h : k' ≠ k) :
    dGet? (dSet m k v) k' = dGet? m k' := by
  induction m with
  | nil => simp [dSet, dGet?, Ne.symm h]
  | cons e rest ih =>
    rw [dSet]
    by_cases he : e.1 = k
    · rw [if_pos he]
      rw [dGet?, dGet?]
      simp [Ne.symm h, he]
    · rw [if_neg he]
      rw [dGet?, dGet?, ih]

theorem dAppend_forall {Q : ν → Prop} {m : List (κ × List ν)} {k : κ} {v : ν}
    (hm : ∀ e ∈ m, ∀ x ∈ e.2, Q x) (hv : Q v) :
    ∀ e ∈ dAppend m k v, ∀ x ∈ e.2, Q x := by
  induction m with
  | nil =>
    intro e he x hx
    rw [dAppend, List.mem_singleton] at he
    subst he
    have hx2 := List.mem_singleton.mp hx
    subst hx2
    exact hv
  | cons a rest ih =>
    intro e he x hx
    rw [dAppend] at he
    by_cases ha : a.1 = k
    · rw [if_pos ha, List.mem_cons] at he
      rcases he with he | he
      · subst he
        rcases List.mem_append.mp hx with hx2 | hx2
        · exact hm a (List.mem_cons_self a rest) x hx2
        · have hx3 := List.mem_singleton.mp hx2
          subst hx3
          exact hv
      · exact hm e (List.mem_cons_of_mem a he) x hx
    · rw [if_neg ha, List.mem_cons] at he
      rcases he with he | he
      · subst he
        exact hm e (List.mem_cons_self e rest) x hx
      · exact ih (fun e2 he2 => hm e2 (List.mem_cons_of_mem a he2)) e he x hx

theorem mem_keys_dAppend {m : List (κ × List ν)} {k a : κ} {v : ν}
    (h : a ∈ (dAppend m k v).map Prod.fst) : a ∈ m.map Prod.fst ∨ a = k := by
  induction m with
  | nil =>
    right
    simpa [dAppend] using h
  | cons e rest ih =>
    rw [dAppend] at h
    by_cases he : e.1 = k
    · rw [if_pos he, List.map_cons, List.mem_cons] at h
      rcases h with h | h
      · left
        rw [List.map_cons, List.mem_cons]
        left
        exact h
      · left
        rw [List.map_cons, List.mem_cons]
        right
        exact h
    · rw [if_neg he, List.map_cons, List.mem_cons] at h
      rcases h with h | h
      · left
        rw [List.map_cons, List.mem_cons]
        left
        exact h
      · rcases ih h with h2 | h2
        · left
          rw [List.map_cons, List.mem_cons]
          right
          exact h2
        · right
          exact h2

theorem keys_nodup_dAppend {m : List (κ × List ν)} {k : κ} {v : ν}
    (h : (m.map Prod.fst).Nodup) : ((dAppend m k v).map Prod.fst).Nodup := by
  induction m with
  | nil => simp [dAppend]
  | cons e rest ih =>
    rw [List.map_cons, List.nodup_cons] at h
    rw [dAppend]
    by_cases he : e.1 = k
    · rw [if_pos he, List.map_cons]
      exact List.nodup_cons.mpr h
    · rw [if_neg he, List.map_cons]
      refine List.nodup_cons.mpr ⟨fun hc => ?_, ih h.2⟩
      rcases mem_keys_dAppend hc with h2 | h2
      · exact h.1 h2
      · exact he h2

theorem dGet?_foldl_dSet_not_mem {β : Type} (f : β → ν)
    {sp : List (κ × β)} {sid : κ} (h : ∀ e ∈ sp, e.1 ≠ sid) (m0 : List (κ × ν)) :
    dGet? (sp.foldl (fun acc e => dSet acc e.1 (f e.2)) m0) sid = dGet? m0 sid := by
  induction sp generalizing m0 with
  | nil => rfl
  | cons e rest ih =>
    rw [List.foldl_cons, ih (fun e2 he2 => h e2 (List.mem_cons_of_mem e he2)),
      dGet?_dSet_ne _ _ (fun hh => h e (List.mem_cons_self e rest) hh.symm)]

theorem dGet?_foldl_dSet_of_mem {β : Type} (f : β → ν)
    {sp : List (κ × β)} {sid : κ} {pts : β}
    (hnd : (sp.map Prod.fst).Nodup) (hmem : (sid, pts) ∈ sp) (m0 : List (κ × ν)) :
    dGet? (sp.foldl (fun acc e => dSet acc e.1 (f e.2)) m0) sid = some (f pts) := by
  induction sp generalizing m0 with
  | nil => simp at hmem
  | cons e rest ih =>
    rw [List.map_cons, List.nodup_cons] at hnd
    rcases List.mem_cons.mp hmem with h | h
    · have he : e.1 = sid := by rw [← h]
      have hp : e.2 = pts := by rw [← h]
      rw [List.foldl_cons]
      rw [dGet?_foldl_dSet_not_mem f (fun e2 he2 hh => hnd.1 (by rw [he, ← hh]; exact List.mem_map_of_mem Prod.fst he2))]
      rw [he, hp, dGet?_dSet_self]
    · exact ih hnd.2 h _

theorem foldl_invariant {α β : Type} (P : β → Prop) (f : β → α → β) (l : List α)
    (b : β) (hb : P b) (hf : ∀ c a, P c → a ∈ l → P (f c a)) : P (l.foldl f b) := by
  induction l generalizing b with
  | nil => exact hb
  | cons x xs ih =>
    exact ih (f b x) (hf b x hb (List.mem_cons_self x xs))
      (fun c a hc ha => hf c a hc (List.mem_cons_of_mem x ha))

theorem foldl_filter_eq {α β : Type} (f : β → α → β) (p : α → Bool) (l : List α)
    (h : ∀ c x, x ∈ l → p x = false → f c x = c) (b : β) :
    (l.filter p).foldl f b = l.foldl f b := by
  induction l generalizing b with
  | nil => rfl
  | cons x xs ih =>
    rw [List.filter_cons]
    by_cases hx : p x = true
    · simp only [hx, if_true, List.foldl_cons]
      exact ih (fun c y hy => h c y (List.mem_cons_of_mem x hy)) _
    · simp only [Bool.not_eq_true] at hx
      simp only [hx, Bool.false_eq_true, if_false, List.foldl_cons,
        h b x (List.mem_cons_self x xs) hx]
      exact ih (fun c y hy => h c y (List.mem_cons_of_mem x hy)) _

theorem pyMaxGo_spec {α : Type} (key : α → Nat) :
    ∀ (xs : List α) (b : α), ∃ pre post, b :: xs = pre ++ pyMaxGo key b xs :: post ∧
      (∀ x ∈ pre, key x < key (pyMaxGo key b xs)) ∧
      (∀ x ∈ b :: xs, key x ≤ key (pyMaxGo key b xs)) := by
  intro xs
  induction xs with
  | nil =>
    intro b
    exact ⟨[], [], by simp [pyMaxGo], by simp, by simp [pyMaxGo]⟩
  | cons x xs ih =>
    intro b
    rw [pyMaxGo]
    by_cases hx : key b < key x
    · rw [if_pos hx]
      obtain ⟨pre, post, heq, hpre, hall⟩ := ih x
      refine ⟨b :: pre, post, by rw [List.cons_append, ← heq], ?_, ?_⟩
      · intro y hy
        rcases List.mem_cons.mp hy with hy | hy
        · rw [hy]
          exact lt_of_lt_of_le hx (hall x (List.mem_cons_self x xs))
        · exact hpre y hy
      · intro y hy
        rcases List.mem_cons.mp hy with hy | hy
        · rw [hy]
          exact le_of_lt (lt_of_lt_of_le hx (hall x (List.mem_cons_self x xs)))
        · exact hall y hy
    · rw [if_neg hx]
      obtain ⟨pre, post, heq, hpre, hall⟩ := ih b
      have hxb : key x ≤ key b := Nat.le_of_not_lt hx
      have hb : key b ≤ key (pyMaxGo key b xs) := hall b (List.mem_cons_self b xs)
      cases pre with
      | nil =>
        rw [List.nil_append, List.cons.injEq] at heq
        refine ⟨[], x :: post, ?_, by simp, ?_⟩
        · rw [List.nil_append, ← heq.1, List.cons.injEq]
          exact ⟨rfl, by rw [heq.2]⟩
        · intro y hy
          rcases List.mem_cons.mp hy with hy | hy
          · rw [hy]
            exact hb
          · rcases List.mem_cons.mp hy with hy | hy
            · rw [hy]
              omega
            · exact hall y (List.mem_cons_of_mem b hy)
      | cons p ps =>
        rw [List.cons_append, List.cons.injEq] at heq
        have hbm : key b < key (pyMaxGo key b xs) := by
          nth_rewrite 1 [heq.1]
          exact hpre p (List.mem_cons_self p ps)
        refine ⟨b :: x :: ps, post, ?_, ?_, ?_⟩
        · rw [List.cons_append, List.cons_append, List.cons.injEq]
          exact ⟨rfl, by rw [← heq.2]⟩
        · intro y hy
          rcases List.mem_cons.mp hy with hy | hy
          · rw [hy]
            exact hbm
          · rcases List.mem_cons.mp hy with hy | hy
            · rw [hy]
              omega
            · exact hpre y (List.mem_cons_of_mem p hy)
        · intro y hy
          rcases List.mem_cons.mp hy with hy | hy
          · rw [hy]
            exact hb
          · rcases List.mem_cons.mp hy with hy | hy
            · rw [hy]
              omega
            · exact hall y (List.mem_cons_of_mem b hy)

theorem pyMax_spec {α : Type} (key : α → Nat) {l : List α} (h : l ≠ []) :
    ∃ pre m post, pyMax key l = some m ∧ l = pre ++ m :: post ∧
      (∀ x ∈ pre, key x < key m) ∧ (∀ x ∈ l, key x ≤ key m) := by
  cases l with
  | nil => exact absurd rfl h
  | cons x xs =>
    obtain ⟨pre, post, heq, hpre, hall⟩ := pyMaxGo_spec key xs x
    exact ⟨pre, pyMaxGo key x xs, post, rfl, heq, hpre, fun y hy => hall y hy⟩

theorem pyMax_mem {α : Type} (key : α → Nat) {l : List α} {m : α}
    (h : pyMax key l = some m) : m ∈ l := by
  cases l with
  | nil => simp [pyMax] at h
  | cons x xs =>
    obtain ⟨pre, mm, post, h1, h2, h3, h4⟩ := pyMax_spec key (l := x :: xs) (by simp)
    rw [h] at h1
    rw [Option.some.injEq] at h1
    subst h1
    rw [h2]
    exact List.mem_append_right _ (List.mem_cons_self _ _)

end Helpers

section OrderFacts

theorem charListLe_total : ∀ x y : List Char,
    charListLe x y = true ∨ charListLe y x = true := by
  intro x
  induction x with
  | nil =>
    intro y
    left
    rfl
  | cons a as ih =>
    intro y
    cases y with
    | nil =>
      right
      rfl
    | cons b bs =>
      rw [charListLe, charListLe]
      by_cases hab : a.toNat < b.toNat
      · left
        rw [if_pos hab]
      · by_cases hba : b.toNat < a.toNat
        · right
          rw [if_pos hba]
        · rw [if_neg hab, if_neg hba, if_neg hba, if_neg hab]
          exact ih bs

theorem charListLe_trans : ∀ x y z : List Char,
    charListLe x y = true → charListLe y z = true → charListLe x z = true := by
  intro x
  induction x with
  | nil =>
    intro y z _ _
    rfl
  | cons a as ih =>
    intro y z hxy hyz
    cases y with
    | nil => simp [charListLe] at hxy
    | cons b bs =>
      cases z with
      | nil => simp [charListLe] at hyz
      | cons c cs =>
        rw [charListLe] at hxy hyz ⊢
        by_cases hab : a.toNat < b.toNat
        · by_cases hbc : b.toNat < c.toNat
          · rw [if_pos (by omega : a.toNat < c.toNat)]
          · by_cases hcb : c.toNat < b.toNat
            · rw [if_neg hbc, if_pos hcb] at hyz
              exact absurd hyz (by simp)
            · rw [if_pos (by omega : a.toNat < c.toNat)]
        · by_cases hba : b.toNat < a.toNat
          · rw [if_neg hab, if_pos hba] at hxy
            exact absurd hxy (by simp)
          · by_cases hbc : b.toNat < c.toNat
            · rw [if_pos (by omega : a.toNat < c.toNat)]
            · by_cases hcb : c.toNat < b.toNat
              · rw [if_neg hbc, if_pos hcb] at hyz
                exact absurd hyz (by simp)
              · rw [if_neg hab, if_neg hba] at hxy
                rw [if_neg hbc, if_neg hcb] at hyz
                rw [if_neg (by omega : ¬a.toNat < c.toNat),
                  if_neg (by omega : ¬c.toNat < a.toNat)]
                exact ih bs cs hxy hyz

theorem strLe_total (a b : String) : strLe a b ∨ strLe b a :=
  charListLe_total a.data b.data

theorem strLe_trans {a b c : String} (h1 : strLe a b) (h2 : strLe b c) :
    strLe a c :=
  charListLe_trans a.data b.data c.data h1 h2

instance : IsTotal (Int × String) pairLe := by
  refine ⟨fun a b => ?_⟩
  rcases lt_trichotomy a.1 b.1 with h | h | h
  · left
    left
    exact h
  · rcases strLe_total a.2 b.2 with h2 | h2
    · left
      right
      exact ⟨h, h2⟩
    · right
      right
      exact ⟨h.symm, h2⟩
  · right
    left
    exact h

instance : IsTrans (Int × String) pairLe := by
  refine ⟨fun a b c h1 h2 => ?_⟩
  rcases h1 with h1 | ⟨h1e, h1s⟩
  · rcases h2 with h2 | ⟨h2e, _⟩
    · left
      omega
    · left
      omega
  · rcases h2 with h2 | ⟨h2e, h2s⟩
    · left
      omega
    · right
      exact ⟨by omega, strLe_trans h1s h2s⟩

instance : IsTotal (Int × Rat × Rat) seqLe := by
  refine ⟨fun a b => ?_⟩
  rcases le_total a.1 b.1 with h | h
  · left
    exact h
  · right
    exact h

instance : IsTrans (Int × Rat × Rat) seqLe := by
  refine ⟨fun a b c h1 h2 => ?_⟩
  exact le_trans h1 h2

end OrderFacts

section SortFacts

theorem filter_insertionSort {α : Type} (r : α → α → Prop) [DecidableRel r]
    (p : α → Bool) (hp : ∀ x y, p x = true → p y = true → r x y) (l : List α) :
    (List.insertionSort r l).filter p = l.filter p := by
  have h1 : List.Sublist (l.filter p) l := List.filter_sublist l
  have h2 : (l.filter p).Pairwise r := by
    refine List.pairwise_of_forall_mem_list (fun a ha b hb => ?_)
    exact hp a b (List.of_mem_filter ha) (List.of_mem_filter hb)
  have h3 : List.Sublist (l.filter p) (List.insertionSort r l) :=
    List.sublist_insertionSort h2 h1
  have h4 : List.Sublist ((l.filter p).filter p) ((List.insertionSort r l).filter p) :=
    h3.filter p
  rw [List.filter_eq_self.mpr (fun a ha => List.of_mem_filter ha)] at h4
  have h5 : ((List.insertionSort r l).filter p).length = (l.filter p).length :=
    ((List.perm_insertionSort r l).filter p).length_eq
  exact (h4.eq_of_length h5.symm).symm

end SortFacts

/-! ### Claims -/

/-- Claim C1, counterexample: `normalize_route_type` is not `{0..7}`-valued on
every integer — the negative code `-1` satisfies `-1 <= 7` and passes through
unchanged, escaping the claimed range. -/
theorem normalize_route_type_range_counterexample :
    normalize_route_type (-1) = -1 ∧
    ¬ (0 ≤ normalize_route_type (-1) ∧ normalize_route_type (-1) ≤ 7) := by
  decide

/-- Claim C1 (amended): for every non-negative integer code,
`normalize_route_type` returns a value in `{0..7}`; the listed extended codes
map to their basic family; codes already in `0..7` pass through unchanged;
any other non-negative code maps to 3 (Bus); and normalization is idempotent
on every integer (negative codes, though outside `0..7`, are fixed points). -/
theorem normalize_route_type_amended :
    (∀ t : Int, 0 ≤ t → 0 ≤ normalize_route_type t ∧ normalize_route_type t ≤ 7) ∧
    (normalize_route_type 100 = 2 ∧ normalize_route_type 101 = 2 ∧
      normalize_route_type 102 = 2 ∧ normalize_route_type 103 = 2 ∧
      normalize_route_type 106 = 2 ∧ normalize_route_type 109 = 2 ∧
      normalize_route_type 400 = 1 ∧ normalize_route_type 401 = 1 ∧
      normalize_route_type 700 = 3 ∧ normalize_route_type 702 = 3 ∧
      normalize_route_type 704 = 3 ∧ normalize_route_type 900 = 0 ∧
      normalize_route_type 1000 = 4) ∧
    (∀ t : Int, 0 ≤ t → t ≤ 7 → normalize_route_type t = t) ∧
    (∀ t : Int, 0 ≤ t →
      t ∉ ([100, 101, 102, 103, 106, 109, 400, 401, 700, 702, 704, 900, 1000] : List Int) →
      ¬ t ≤ 7 → normalize_route_type t = 3) ∧
    (∀ t : Int, normalize_route_type (normalize_route_type t) = normalize_route_type t) := by
  refine ⟨?_, by decide, ?_, ?_, ?_⟩
  · intro t ht
    delta normalize_route_type
    omega
  · intro t h0 h7
    delta normalize_route_type
    omega
  · intro t h0 hmem h7
    simp only [List.mem_cons, List.mem_singleton] at hmem
    push_neg at hmem
    obtain ⟨a1, a2, a3, a4, a5, a6, a7, a8, a9, a10, a11, a12, a13⟩ := hmem
    delta normalize_route_type
    omega
  · intro t
    delta normalize_route_type
    omega

/-- Claim C1 witness: the amended theorem applied at concrete codes. -/
theorem normalize_route_type_amended_witness :
    (0 ≤ normalize_route_type 700 ∧ normalize_route_type 700 ≤ 7) ∧
    normalize_route_type 5 = 5 ∧ normalize_route_type 9999 = 3 ∧
    normalize_route_type (normalize_route_type 101) = normalize_route_type 101 :=
  ⟨normalize_route_type_amended.1 700 (by decide),
   normalize_route_type_amended.2.2.1 5 (by decide) (by decide),
   normalize_route_type_amended.2.2.2.1 9999 (by decide) (by decide) (by decide),
   normalize_route_type_amended.2.2.2.2 101⟩

/-- Claim C3, counterexample: a routes row with a `route_id` but a present,
non-numeric `route_type` is skipped entirely (the `ValueError` from `int`
aborts the row), not recorded with the default type 3. -/
theorem parse_routes_nonnumeric_type_counterexample :
    parse_routes [] [exBadTypeRow] = [] ∧
    dGet? (parse_routes [] [exBadTypeRow]) "r" = none := by
  decide

/-- Claim C3 (amended): in routes-table parsing, a row with a `route_id` is
recorded when its `route_type` field is absent (type defaults to 3) or parses
as an integer (that integer is the type); a row whose `route_type` is present
but non-numeric is skipped, as is a row missing `route_id`.  The recorded name
is `route_short_name` if present and non-empty, else `route_long_name`, else
the empty string. -/
theorem parse_routes_row_amended :
    ∀ (info : List (String × String × Int)) (row : Row),
      (dGet? row "route_id" = none → parse_routes_row info row = info) ∧
      (∀ rid, dGet? row "route_id" = some rid →
        (dGet? row "route_type" = none →
          parse_routes_row info row = dSet info rid (routeName row, 3)) ∧
        (∀ s, dGet? row "route_type" = some s → pyInt? s = none →
          parse_routes_row info row = info) ∧
        (∀ s n, dGet? row "route_type" = some s → pyInt? s = some n →
          parse_routes_row info row = dSet info rid (routeName row, n))) ∧
      (∀ s, dGet? row "route_short_name" = some s → s ≠ "" → routeName row = s) ∧
      ((dGet? row "route_short_name" = some "" ∨ dGet? row "route_short_name" = none) →
        routeName row = (dGet? row "route_long_name").getD "") := by
  intro info row
  refine ⟨?_, ?_, ?_, ?_⟩
  · intro h
    simp only [parse_routes_row, h]
  · intro rid hr
    refine ⟨?_, ?_, ?_⟩
    · intro h
      simp only [parse_routes_row, hr, h]
    · intro s hs hn
      simp only [parse_routes_row, hr, hs, hn]
    · intro s n hs hn
      simp only [parse_routes_row, hr, hs, hn]
  · intro s hs hne
    simp only [routeName, hs, if_neg hne]
  · intro h
    rcases h with h | h
    · simp only [routeName, h, if_true, eq_self_iff_true]
    · simp only [routeName, h]

/-- Claim C3 witness: the amended characterization applied to a concrete row
with a short name and no `route_type`. -/
theorem parse_routes_row_amended_witness :
    parse_routes_row [] exGoodRouteRow = dSet [] "r" (routeName exGoodRouteRow, 3) ∧
    routeName exGoodRouteRow = "R1" :=
  ⟨((parse_routes_row_amended [] exGoodRouteRow).2.1 "r" (by decide)).1 (by decide),
   (parse_routes_row_amended [] exGoodRouteRow).2.2.1 "R1" (by decide) (by decide)⟩

/-- Claim C8, failing input: on a valid archive whose `stops.txt` has a
non-blank data row shorter than the header, `csv.DictReader` pads the missing
cells with `None`, `float(None)` raises `TypeError`, and the handler
`except (KeyError, ValueError)` does not catch it — so the row loop, and with
it `_parse_zip` (which catches only `BadZipFile`), raises instead of
returning success. -/
theorem stops_short_row_uncaught :
    stops_row_outcome exShortStopsRow = RowOutcome.uncaughtTypeError := by
  decide

/-- Claim C10: the ordered stop list of a trip sorts the `(sequence, stop_id)`
pairs as tuples, so entries tied on sequence are ordered by stop id
(code-point lexicographic), not by input-row order — as the concrete instance
with tied sequences and reversed ids shows. -/
theorem trip_stops_tie_order :
    (∀ l : List (Int × String),
      (List.insertionSort pairLe l).Pairwise
        (fun a b => a.1 = b.1 → strLe a.2 b.2)) ∧
    sortTripStops [(1, "b"), (1, "a")] = ["a", "b"] := by
  refine ⟨?_, by decide⟩
  intro l
  refine List.Pairwise.imp ?_ (List.sorted_insertionSort pairLe l)
  intro a b hab heq
  rcases hab with h | h
  · omega
  · exact h.2

/-- Claim C5: `load_from_file` loads the derived cache exactly when the cache
file exists, its mtime is strictly greater than the archive's, and it
unpickles successfully; when the mtime test fails (cache at T or T-1 versus
archive at T) or the selected cache is corrupt, it re-parses the archive
instead of failing. -/
theorem load_from_file_cache_policy :
    ∀ env : FsEnv,
      (∀ d, env.cacheData = some d →
        (load_from_file env = LoadOutcome.fromCache d.1 d.2 ↔
          (env.cacheExists = true ∧ env.zipMtime < env.cacheMtime))) ∧
      (¬ (env.cacheExists = true ∧ env.zipMtime < env.cacheMtime) →
        load_from_file env = load_parse env) ∧
      (env.cacheData = none → load_from_file env = load_parse env) := by
  intro env
  by_cases hc : env.cacheExists = true ∧ env.zipMtime < env.cacheMtime
  · refine ⟨?_, ?_, ?_⟩
    · intro d hd
      rw [load_from_file, if_pos hc, hd]
      exact iff_of_true rfl hc
    · intro hn
      exact absurd hc hn
    · intro hd
      rw [load_from_file, if_pos hc, hd]
  · refine ⟨?_, ?_, ?_⟩
    · intro d hd
      rw [load_from_file, if_neg hc]
      constructor
      · intro h
        exfalso
        rw [load_parse] at h
        cases hz : env.zipTables with
        | none =>
          rw [hz] at h
          exact LoadOutcome.noConfusion h
        | some z =>
          rw [hz] at h
          exact LoadOutcome.noConfusion h
      · intro h2
        exact absurd h2 hc
    · intro h2
      rw [load_from_file, if_neg hc]
    · intro hd
      rw [load_from_file, if_neg hc]

/-- Claim C5 witness: the policy applied to a fresh cache (T+1 over T), a
same-instant cache (T over T), and a fresh but corrupt cache. -/
theorem load_from_file_cache_policy_witness :
    load_from_file exEnvFresh = LoadOutcome.fromCache [] [] ∧
    load_from_file exEnvSame = load_parse exEnvSame ∧
    load_from_file exEnvCorrupt = load_parse exEnvCorrupt :=
  ⟨((load_from_file_cache_policy exEnvFresh).1 ([], []) rfl).mpr ⟨rfl, by decide⟩,
   (load_from_file_cache_policy exEnvSame).2.1 (by decide),
   (load_from_file_cache_policy exEnvCorrupt).2.2 rfl⟩

/-- Claim C6: every route emitted by the reconstruction phase has at least
two stop ids after filtering to known stops (shorter candidates are silently
dropped), and parsing any archive that opens still succeeds. -/
theorem route_requires_two_stops :
    (∀ st : ParserState, ∀ r ∈ build_routes st, 2 ≤ r.stop_ids.length) ∧
    (∀ t : GtfsTables, (parse_zip (some t)).1 = true) := by
  constructor
  · intro st r hr
    obtain ⟨e, he, hmk⟩ := List.mem_filterMap.mp hr
    cases hpm : pyMax (fun x => x.1.length) e.2 with
    | none =>
      simp only [mkRoute, hpm] at hmk
      exact absurd hmk (by simp)
    | some best =>
      simp only [mkRoute, hpm] at hmk
      split at hmk
      · exact absurd hmk (by simp)
      · rename_i hlen
        rw [Option.some.injEq] at hmk
        subst hmk
        exact Nat.le_of_not_lt hlen
  · intro t
    rfl

/-- Claim C6 witness: a concrete emitted route with exactly two resolvable
stops, and a concrete successful parse. -/
theorem route_requires_two_stops_witness :
    (⟨"R", "Unknown", 3, ["A", "B"], []⟩ : Route) ∈ build_routes exSmallState ∧
    2 ≤ (⟨"R", "Unknown", 3, ["A", "B"], []⟩ : Route).stop_ids.length ∧
    (parse_zip (some exLoopFeed)).1 = true :=
  ⟨by decide, route_requires_two_stops.1 exSmallState _ (by decide),
   route_requires_two_stops.2 exLoopFeed⟩

/-- Claim C7: per shape id, the stored coordinate list is the accumulated
points sorted stably by sequence number: the stored value is the sorted
projection of the accumulated list, the sorted list is ordered by sequence,
it is a permutation of the accumulated points, and entries with any given
sequence number keep their input order; the out-of-order example stores
`(0,0), (5,5), (10,10)`. -/
theorem shapes_sorted_stable :
    (∀ (rows : List Row) (sid : String) (pts : List (Int × Rat × Rat)),
      dGet? (shapePoints rows) sid = some pts →
      dGet? (parse_shapes [] rows) sid = some (sortedShape pts) ∧
      (List.insertionSort seqLe pts).Pairwise seqLe ∧
      (List.insertionSort seqLe pts).Perm pts ∧
      (∀ k : Int, (List.insertionSort seqLe pts).filter (fun x => x.1 == k) =
        pts.filter (fun x => x.1 == k))) ∧
    dGet? (parse_shapes [] exShapeRows) "s" = some [(0, 0), (5, 5), (10, 10)] := by
  constructor
  · intro rows sid pts hpts
    have hkeys : ((shapePoints rows).map Prod.fst).Nodup := by
      refine foldl_invariant (fun acc => (acc.map Prod.fst).Nodup)
        shapePointsRow rows [] (by simp) ?_
      intro acc a hacc ha
      rw [shapePointsRow]
      split
      all_goals try exact hacc
      split
      all_goals try exact hacc
      exact keys_nodup_dAppend hacc
    refine ⟨?_, ?_, ?_, ?_⟩
    · rw [parse_shapes]
      exact dGet?_foldl_dSet_of_mem sortedShape hkeys (dGet?_mem hpts) []
    · exact List.sorted_insertionSort seqLe pts
    · exact List.perm_insertionSort seqLe pts
    · intro k
      refine filter_insertionSort seqLe (fun x => x.1 == k) ?_ pts
      intro x y hx hy
      have hx2 : x.1 = k := by simpa using hx
      have hy2 : y.1 = k := by simpa using hy
      show x.1 ≤ y.1
      omega
  · decide

/-- Claim C7 witness: the general statement applied to the concrete
out-of-order shape rows. -/
theorem shapes_sorted_stable_witness :
    dGet? (parse_shapes [] exShapeRows) "s" = some (sortedShape exShapePts) ∧
    (List.insertionSort seqLe exShapePts).Pairwise seqLe ∧
    (List.insertionSort seqLe exShapePts).Perm exShapePts ∧
    (List.insertionSort seqLe exShapePts).filter (fun x => x.1 == 1) =
      exShapePts.filter (fun x => x.1 == 1) := by
  have h := shapes_sorted_stable.1 exShapeRows "s" exShapePts (by decide)
  exact ⟨h.1, h.2.1, h.2.2.1, h.2.2.2 1⟩

section RefinementHelpers

variable {κ : Type} [DecidableEq κ] {ν : Type}

theorem filter_dAppend_pos (q : κ → Bool) {k : κ} (hq : q k = true)
    (m : List (κ × List ν)) (v : ν) :
    (dAppend m k v).filter (fun e => q e.1) =
      dAppend (m.filter (fun e => q e.1)) k v := by
  induction m with
  | nil => simp [dAppend, hq]
  | cons e rest ih =>
    rw [dAppend]
    by_cases he : e.1 = k
    · rw [if_pos he]
      have hqe : q e.1 = true := by rw [he]; exact hq
      rw [List.filter_cons, List.filter_cons]
      simp only [hqe, if_true]
      rw [dAppend, if_pos he]
    · rw [if_neg he]
      rw [List.filter_cons, List.filter_cons]
      by_cases hqe : q e.1 = true
      · simp only [hqe, if_true]
        rw [ih, dAppend, if_neg he]
      · simp only [Bool.not_eq_true] at hqe
        simp only [hqe, Bool.false_eq_true, if_false]
        exact ih

theorem filter_dAppend_neg (q : κ → Bool) {k : κ} (hq : q k = false)
    (m : List (κ × List ν)) (v : ν) :
    (dAppend m k v).filter (fun e => q e.1) = m.filter (fun e => q e.1) := by
  induction m with
  | nil => simp [dAppend, hq]
  | cons e rest ih =>
    rw [dAppend]
    by_cases he : e.1 = k
    · rw [if_pos he]
      have hqe : q e.1 = false := by rw [he]; exact hq
      rw [List.filter_cons, List.filter_cons]
      simp only [hqe, Bool.false_eq_true, if_false]
    · rw [if_neg he]
      rw [List.filter_cons, List.filter_cons]
      by_cases hqe : q e.1 = true
      · simp only [hqe, if_true]
        rw [ih]
      · simp only [Bool.not_eq_true] at hqe
        simp only [hqe, Bool.false_eq_true, if_false]
        exact ih

end RefinementHelpers

theorem parse_stop_times_row_filter (t2r : List (String × String))
    (acc : List (String × List (Int × String))) (row : Row) :
    parse_stop_times_row t2r (acc.filter (fun e => (dGet? t2r e.1).isSome)) row =
      (parse_stop_times_row_all acc row).filter (fun e => (dGet? t2r e.1).isSome) := by
  cases h1 : dGet? row "trip_id" with
  | none => simp only [parse_stop_times_row, parse_stop_times_row_all, h1]
  | some tid =>
    by_cases h2 : (dGet? t2r tid).isSome = true
    · simp only [parse_stop_times_row, parse_stop_times_row_all, h1, h2, if_true]
      split
      · rfl
      · split
        · rfl
        · split
          · exact (filter_dAppend_pos (fun k => (dGet? t2r k).isSome) h2 acc _).symm
          · rfl
    · simp only [Bool.not_eq_true] at h2
      simp only [parse_stop_times_row, parse_stop_times_row_all, h1, h2,
        Bool.false_eq_true, if_false]
      split
      · rfl
      · split
        · rfl
        · split
          · exact (filter_dAppend_neg (fun k => (dGet? t2r k).isSome) h2 acc _).symm
          · rfl

theorem parse_stop_times_eq_filter (t2r : List (String × String))
    (rows : List Row) :
    ∀ acc, parse_stop_times t2r (acc.filter (fun e => (dGet? t2r e.1).isSome)) rows =
      (parse_stop_times_all acc rows).filter (fun e => (dGet? t2r e.1).isSome) := by
  induction rows with
  | nil =>
    intro acc
    rfl
  | cons row rows ih =>
    intro acc
    rw [parse_stop_times, List.foldl_cons, parse_stop_times_row_filter,
      parse_stop_times_all, List.foldl_cons]
    exact ih (parse_stop_times_row_all acc row)

theorem routeTrips_filter_known (t2r t2s : List (String × String))
    (ts : List (String × List (Int × String))) :
    routeTrips t2r t2s (ts.filter (fun e => (dGet? t2r e.1).isSome)) =
      routeTrips t2r t2s ts := by
  rw [routeTrips, routeTrips]
  refine foldl_filter_eq _ _ _ ?_ []
  intro acc e he hp
  have hn : dGet? t2r e.1 = none := by
    cases hh : dGet? t2r e.1 with
    | none => rfl
    | some v =>
      rw [hh] at hp
      simp at hp
  simp only [routeTripsStep, hn]

theorem build_routes_unfiltered_eq (stops : List (String × Stop))
    (route_info : List (String × String × Int)) (t2r t2s : List (String × String))
    (shapes : List (String × List (Rat × Rat))) (strows : List Row) :
    build_routes ⟨stops, [], route_info, t2r, t2s, parse_stop_times_all [] strows, shapes⟩ =
      build_routes ⟨stops, [], route_info, t2r, t2s, parse_stop_times t2r [] strows, shapes⟩ := by
  rw [build_routes, build_routes]
  have hts : parse_stop_times t2r [] strows =
      (parse_stop_times_all [] strows).filter (fun e => (dGet? t2r e.1).isSome) := by
    have h := parse_stop_times_eq_filter t2r strows []
    simpa using h
  show (routeTrips t2r t2s (parse_stop_times_all [] strows)).filterMap _ =
    (routeTrips t2r t2s (parse_stop_times t2r [] strows)).filterMap _
  rw [hts, routeTrips_filter_known]

/-- Claim C9: the early-exit filter in stop-times parsing is a pure
optimization — for every archive, the stops mapping and the routes sequence
produced with the filter are identical to those produced by the variant that
accumulates every well-formed stop-time row. -/
theorem stop_times_filter_refinement :
    ∀ t : GtfsTables,
      (run_tables_all t).stops = (run_tables t).stops ∧
      (run_tables_all t).routes = (run_tables t).routes := by
  intro t
  obtain ⟨os, orr, otr, osh, ost⟩ := t
  cases ost with
  | none => exact ⟨rfl, rfl⟩
  | some strows =>
    refine ⟨rfl, ?_⟩
    simp only [run_tables, run_tables_all]
    rw [build_routes_unfiltered_eq]

/-- Claim C2, counterexample: a trip that visits stop `A` at sequences 1 and 3
yields a final route whose `stop_ids` is `["A", "B", "A"]` — the reconstruction
performs no deduplication, so the path is not duplicates-free. -/
theorem build_routes_duplicate_stop_counterexample :
    (run_tables exLoopFeed).routes.map Route.stop_ids = [["A", "B", "A"]] ∧
    ¬ (∀ r ∈ (run_tables exLoopFeed).routes, r.stop_ids.Nodup) := by
  decide

/-- Claim C2 (amended): every final route's `stop_ids` is the sequence-sorted
stop-id projection of one trip recorded in the trip-stops index (its
representative trip), filtered to stops present in the stops table; each stop
id present in the stops table appears in the path exactly as often as in that
trip's stop-time entries (no deduplication is performed), and in particular
`stop_ids` is duplicate-free whenever that trip references each stop id at
most once. -/
theorem build_routes_nodup_amended :
    ∀ st : ParserState, ∀ r ∈ build_routes st,
      ∃ tid stops, (tid, stops) ∈ st.trip_stops ∧
        r.stop_ids = (sortTripStops stops).filter
          (fun s => (dGet? st.stops s).isSome) ∧
        (∀ s, (dGet? st.stops s).isSome = true →
          r.stop_ids.count s = (stops.map Prod.snd).count s) ∧
        ((stops.map Prod.snd).Nodup → r.stop_ids.Nodup) := by
  intro st r hr
  obtain ⟨e, he, hmk⟩ := List.mem_filterMap.mp hr
  have hP : ∀ b ∈ routeTrips st.trip_to_route st.trip_to_shape st.trip_stops,
      ∀ x ∈ b.2, ∃ tid stops,
        (tid, stops) ∈ st.trip_stops ∧ x.1 = sortTripStops stops := by
    refine foldl_invariant (fun acc => ∀ b ∈ acc, ∀ x ∈ b.2, ∃ tid stops,
        (tid, stops) ∈ st.trip_stops ∧ x.1 = sortTripStops stops)
      (routeTripsStep st.trip_to_route st.trip_to_shape) st.trip_stops [] (by simp) ?_
    intro acc a hacc ha
    cases hta : dGet? st.trip_to_route a.1 with
    | none =>
      simp only [routeTripsStep, hta]
      exact hacc
    | some rid =>
      simp only [routeTripsStep, hta]
      by_cases hrid : rid = ""
      · rw [if_pos hrid]
        exact hacc
      · rw [if_neg hrid]
        refine dAppend_forall hacc ?_
        exact ⟨a.1, a.2, by simpa using ha, rfl⟩
  cases hpm : pyMax (fun x => x.1.length) e.2 with
  | none =>
    simp only [mkRoute, hpm] at hmk
    exact absurd hmk (by simp)
  | some best =>
    obtain ⟨tid, stops, hmem, hrep⟩ := hP e he best (pyMax_mem _ hpm)
    have hperm : ((List.insertionSort pairLe stops).map Prod.snd).Perm
        (stops.map Prod.snd) :=
      (List.perm_insertionSort pairLe stops).map Prod.snd
    simp only [mkRoute, hpm] at hmk
    split at hmk
    · exact absurd hmk (by simp)
    · rw [Option.some.injEq] at hmk
      subst hmk
      refine ⟨tid, stops, hmem, by rw [hrep], ?_, ?_⟩
      · intro s hs
        have hcf : List.count s
            (List.filter (fun x => (dGet? st.stops x).isSome) best.1) =
            List.count s best.1 :=
          @List.count_filter String _ _ (fun x => (dGet? st.stops x).isSome) s best.1 hs
        rw [hcf, hrep, sortTripStops]
        exact hperm.count_eq s
      · intro hnd
        show (best.1.filter (fun s => (dGet? st.stops s).isSome)).Nodup
        rw [hrep, sortTripStops]
        exact (hperm.nodup_iff.mpr hnd).filter _

/-- Claim C2 witness: the amended theorem applied at a concrete state and
emitted route, exhibiting the representative trip, the path equation, the
per-stop count equalities, and the duplicate-free conclusion. -/
theorem build_routes_nodup_amended_witness :
    (⟨"R", "Unknown", 3, ["A", "B"], []⟩ : Route) ∈ build_routes exSmallState ∧
    ∃ tid stops, (tid, stops) ∈ exSmallState.trip_stops ∧
      (⟨"R", "Unknown", 3, ["A", "B"], []⟩ : Route).stop_ids =
        (sortTripStops stops).filter
          (fun s => (dGet? exSmallState.stops s).isSome) ∧
      (∀ s, (dGet? exSmallState.stops s).isSome = true →
        (⟨"R", "Unknown", 3, ["A", "B"], []⟩ : Route).stop_ids.count s =
          (stops.map Prod.snd).count s) ∧
      ((stops.map Prod.snd).Nodup →
        (⟨"R", "Unknown", 3, ["A", "B"], []⟩ : Route).stop_ids.Nodup) :=
  ⟨by decide, build_routes_nodup_amended exSmallState _ (by decide)⟩

/-- Claim C4: Python `max` with the stop-count key returns the first element
of maximal key — every earlier grouped trip is strictly shorter and no trip is
longer — and concretely, with a 5-stop and an 8-stop trip on one route, the
final route follows the 8-stop trip whichever block of stop-time rows comes
first in the input file. -/
theorem representative_trip_longest :
    (∀ td : List (List String × String), td ≠ [] →
      ∃ pre m post, pyMax (fun x => x.1.length) td = some m ∧
        td = pre ++ m :: post ∧
        (∀ x ∈ pre, x.1.length < m.1.length) ∧
        (∀ x ∈ td, x.1.length ≤ m.1.length)) ∧
    (run_tables exTwoTripsA).routes.map Route.stop_ids =
      [["S1", "S2", "S3", "S4", "S5", "S6", "S7", "S8"]] ∧
    (run_tables exTwoTripsB).routes.map Route.stop_ids =
      [["S1", "S2", "S3", "S4", "S5", "S6", "S7", "S8"]] := by
  refine ⟨fun td h => pyMax_spec (fun x => x.1.length) h, by decide, by decide⟩

/-- Claim C4 witness: the selection spec applied to a concrete two-trip group,
where the longer second trip is chosen. -/
theorem representative_trip_longest_witness :
    pyMax (fun x : List String × String => x.1.length)
      [(["a"], ""), (["b", "c"], "")] = some (["b", "c"], "") ∧
    ∃ pre m post,
      pyMax (fun x : List String × String => x.1.length)
        [(["a"], ""), (["b", "c"], "")] = some m ∧
      [(["a"], ""), (["b", "c"], "")] = pre ++ m :: post ∧
      (∀ x ∈ pre, x.1.length < m.1.length) ∧
      (∀ x ∈ [(["a"], ""), (["b", "c"], "")], x.1.length ≤ m.1.length) :=
  ⟨by decide, representative_trip_longest.1 _ (by decide)⟩
